import Mathlib

/-!
Verification development for the CPStats rating-fetcher core
(`rating_fetcher.py`): the four platform adapters, the dispatcher
`get_rating_by_platform`, and the batch orchestrator
`get_multiple_ratings`, shallowly embedded in Lean.

Modelling conventions:
* The HTTP transport outcome of the single outbound request an adapter
  makes is an explicit argument (`Fetch`): a timeout, a connection
  failure, or a response with a status code and a body.
* Python exceptions are explicit values (`Exc`); the adapter-level
  `try/except` ladder becomes a `match` on the exceptional result.
* Response bodies are structured values describing what the parsing
  code observes (JSON fields, selector hits, table-cell texts); a
  malformed JSON body that makes `response.json()` raise is an
  `Except.error` carrying the stringified cause.
* Python `str.lower` / `str.strip` and the regex `re.sub(r'[^\d]','',s)`
  are modelled over ASCII by executable char-list functions so that all
  definitions kernel-evaluate.
* Numeric JSON values are modelled as integers (the spec's data model
  declares ratings integral); the batch average is a rational.
-/

/-! ## String helpers (ASCII models of the Python primitives) -/

/-- ASCII model of the lowercasing of a single character. -/
def lowerChar (c : Char) : Char :=
  if 65 ≤ c.toNat ∧ c.toNat ≤ 90 then Char.ofNat (c.toNat + 32) else c

/-- Model of Python `str.lower()`. -/
def lowerStr (s : String) : String := ⟨s.data.map lowerChar⟩

/-- Whitespace test used by the model of `str.strip()`. -/
def isWS (c : Char) : Bool := c == ' ' || c == '\t' || c == '\n' || c == '\r'

/-- Strip whitespace from both ends of a character list. -/
def trimChars (cs : List Char) : List Char :=
  ((cs.dropWhile isWS).reverse.dropWhile isWS).reverse

/-- Model of Python `str.strip()`. -/
def trimStr (s : String) : String := ⟨trimChars s.data⟩

/-- Decimal-digit test (`[^\d]` complement, ASCII). -/
def isDigitC (c : Char) : Bool := 48 ≤ c.toNat && c.toNat ≤ 57

/-- Model of `re.sub(r'[^\d]', '', s)`: the digit characters of `s`. -/
def digitsOf (s : String) : List Char := s.data.filter isDigitC

/-- Value of a nonempty list of decimal digits (Python `int(s)`). -/
def natOfDigits (ds : List Char) : Nat :=
  ds.foldl (fun n c => n * 10 + (c.toNat - 48)) 0

/-- Does `pat` occur at the start of `cs`? -/
def hasPre : List Char → List Char → Bool
  | [], _ => true
  | _ :: _, [] => false
  | p :: ps, c :: cs => p == c && hasPre ps cs

/-- Does `pat` occur anywhere in `cs`? (Python `pat in s`.) -/
def occursAt (pat : List Char) : List Char → Bool
  | [] => hasPre pat []
  | c :: cs => hasPre pat (c :: cs) || occursAt pat cs

/-- Model of Python `pat in s` on strings. -/
def occursInStr (pat s : String) : Bool := occursAt pat.data s.data

/-- The suffix of `cs` after the first occurrence of `pat` (`[]` if none). -/
def afterFirst (pat : List Char) : List Char → List Char
  | [] => []
  | c :: cs => if hasPre pat (c :: cs) then (c :: cs).drop pat.length else afterFirst pat cs

/-- The prefix of `cs` before the first occurrence of `pat` (all of `cs` if none). -/
def beforeFirst (pat : List Char) : List Char → List Char
  | [] => []
  | c :: cs => if hasPre pat (c :: cs) then [] else c :: beforeFirst pat cs

/-- Model of Python `s.split(pat)[1].strip()` for a `pat` known to occur in
`s`: the stripped segment between the first occurrence of `pat` and the
next occurrence (or the end). -/
def segAfter (pat s : String) : String :=
  ⟨trimChars (beforeFirst pat.data (afterFirst pat.data s.data))⟩

/-! ## Transport and exception model -/

/-- Outcome of the single outbound HTTP request an adapter issues:
`requests` raising a timeout, raising a connection error, or delivering
a response with a status code and a body of shape `β`. -/
inductive Fetch (β : Type)
  | timeout
  | connError
  | ok (code : Nat) (body : β)

/-- The exceptions the adapter `try` blocks can observe. -/
inductive Exc
  | timeout
  | connError
  | httpError (code : Nat)
  | other (msg : String)

/-- Does `response.raise_for_status()` raise for this code? (4xx/5xx.) -/
def raisesForStatus (code : Nat) : Bool := 400 ≤ code && code < 600

/-- Model of Python `str(e)` on the exceptions above.  The exact text of a
stringified `HTTPError` is transport-library detail; it is modelled as a
fixed function of the status code. -/
def Exc.toMessage : Exc → String
  | .timeout => "Request timeout"
  | .connError => "Connection error"
  | .httpError code => "HTTP error " ++ Nat.repr code
  | .other msg => msg

/-! ## Rating Record -/

/-- The terminal status of a Rating Record. -/
inductive Status
  | success
  | user_not_found
  | error
deriving Repr, DecidableEq, BEq

/-- The normalized result of one fetch attempt.  Python returns a dict
whose keys vary by adapter; absence of a key is `none`.  The two
LeetCode fields that are present-but-possibly-null are
`Option (Option Int)`: the outer level is key presence, the inner the
JSON null. -/
structure Record where
  platform : String
  username : String
  rating : Int
  status : Status
  error : Option String := none
  max_rating : Option Int := none
  rank : Option String := none
  max_rank : Option String := none
  contribution : Option Int := none
  global_ranking : Option (Option Int) := none
  contests_attended : Option Int := none
  profile_ranking : Option (Option Int) := none
  country_flag : Option String := none
  country_name : Option String := none
  global_rank : Option Int := none
  country_rank : Option Int := none
  stars : Option String := none
  rank_value : Option Int := none
  country : Option String := none
deriving Repr, DecidableEq

/-- The error record every adapter builds in its `except` arms. -/
def errorRecord (platform username msg : String) : Record :=
  { platform := platform, username := username, rating := 0,
    status := .error, error := some msg }

/-- The user-not-found record the adapters build. -/
def notFoundRecord (platform username : String) : Record :=
  { platform := platform, username := username, rating := 0,
    status := .user_not_found, error := some "User not found" }

/-! ## LeetCode adapter (`get_leetcode_rating`, rating_fetcher.py:19-117) -/

/-- The `userContestRanking` object of the LeetCode GraphQL response. -/
structure ContestRanking where
  attendedContestsCount : Int
  rating : Int
  globalRanking : Option Int
deriving Repr, DecidableEq

/-- The `matchedUser` object.  `profileRanking` is `some r` when the
`profile` object is present with (possibly null) `ranking` `r`, `none`
when `profile` is absent or falsy. -/
structure MatchedUser where
  profileRanking : Option (Option Int)
deriving Repr, DecidableEq

/-- The decoded LeetCode GraphQL response body.  `matchedUser = none`
covers both a missing/falsy `data` object and a null `matchedUser`. -/
structure LeetcodeBody where
  matchedUser : Option MatchedUser
  userContestRanking : Option ContestRanking
deriving Repr, DecidableEq

def get_leetcode_rating (username : String)
    (t : Fetch (Except String LeetcodeBody)) : Record :=
  match t with
  | .timeout => errorRecord "leetcode" username (Exc.toMessage .timeout)
  | .connError => errorRecord "leetcode" username (Exc.toMessage .connError)
  | .ok code body =>
    if raisesForStatus code then
      errorRecord "leetcode" username (Exc.toMessage (.httpError code))
    else
      match body with
      | .error msg => errorRecord "leetcode" username (Exc.toMessage (.other msg))
      | .ok data =>
        match data.matchedUser with
        | some user_data =>
          let contest_data := data.userContestRanking
          { platform := "leetcode", username := username,
            rating := match contest_data with | some c => c.rating | none => 0,
            global_ranking :=
              some (match contest_data with | some c => c.globalRanking | none => none),
            contests_attended :=
              some (match contest_data with | some c => c.attendedContestsCount | none => 0),
            profile_ranking :=
              some (match user_data.profileRanking with | some r => r | none => none),
            status := .success }
        | none => notFoundRecord "leetcode" username

/-! ## Codeforces adapter (`get_codeforces_rating`, rating_fetcher.py:119-188) -/

/-- One element of the `result` list of the Codeforces `user.info`
response; every field is read with `.get(..., default)`. -/
structure CFUser where
  rating : Option Int
  maxRating : Option Int
  rank : Option String
  maxRank : Option String
  contribution : Option Int
deriving Repr, DecidableEq

/-- The decoded Codeforces response body. -/
structure CFBody where
  status : String
  result : List CFUser
deriving Repr, DecidableEq

def get_codeforces_rating (username : String)
    (t : Fetch (Except String CFBody)) : Record :=
  match t with
  | .timeout => errorRecord "codeforces" username (Exc.toMessage .timeout)
  | .connError => errorRecord "codeforces" username (Exc.toMessage .connError)
  | .ok code body =>
    if raisesForStatus code then
      errorRecord "codeforces" username (Exc.toMessage (.httpError code))
    else
      match body with
      | .error msg => errorRecord "codeforces" username (Exc.toMessage (.other msg))
      | .ok data =>
        if data.status == "OK" then
          match data.result with
          | user_info :: _ =>
            { platform := "codeforces", username := username,
              rating := user_info.rating.getD 0,
              max_rating := some (user_info.maxRating.getD 0),
              rank := some (user_info.rank.getD "unrated"),
              max_rank := some (user_info.maxRank.getD "unrated"),
              contribution := some (user_info.contribution.getD 0),
              status := .success }
          | [] => notFoundRecord "codeforces" username
        else notFoundRecord "codeforces" username

/-! ## CodeChef adapter (`get_codechef_rating`, rating_fetcher.py:190-410) -/

/-- What the CodeChef HTML parsing observes on the profile page:
the raw body text (for the not-found marker), the text of the
`.rating-number` element when present, the texts of that element's
parent's non-newline children when the element has a parent, the two
country selector hits, the `li` texts under the `.rating-ranks` list
(`[]` when the container or `ul` is absent), and the `.rating` text. -/
structure CodechefPage where
  bodyText : String
  ratingText : Option String
  parentChildren : Option (List String)
  countryFlagSrc : Option String
  countryNameText : Option String
  rankItems : List String
  starsText : Option String
deriving Repr, DecidableEq

/-- Current-rating extraction: digits of the `.rating-number` text,
default `0` on absence or no digits. -/
def ratingFrom (ratingText : Option String) : Int :=
  match ratingText with
  | some t =>
    let ds := digitsOf t
    if ds ≠ [] then (natOfDigits ds : Int) else 0
  | none => 0

/-- Max-rating extraction: only when the rating element exists and has a
parent, take the last of the parent's non-newline children provided
there are more than 4 of them, look for the literal "Rating" in its
text, and parse the digits of the segment after it; default `0`. -/
def maxRatingFrom (ratingText : Option String)
    (parentChildren : Option (List String)) : Int :=
  match ratingText, parentChildren with
  | some _, some children =>
    if children.length > 4 then
      match children.getLast? with
      | some lastText =>
        if occursInStr "Rating" lastText then
          let ds := digitsOf (segAfter "Rating" lastText)
          if ds ≠ [] then (natOfDigits ds : Int) else 0
        else 0
      | none => 0
    else 0
  | _, _ => 0

/-- Rank extraction: scan the `li` texts; a text containing
"Global Rank" updates the global rank from its digits, otherwise one
containing "Country Rank" updates the country rank; later matches
overwrite earlier ones, and a match without digits leaves the value. -/
def scanRanks : List String → Int × Int → Int × Int
  | [], st => st
  | li_text :: rest, (g, c) =>
    if occursInStr "Global Rank" li_text then
      let ds := digitsOf li_text
      scanRanks rest ((if ds ≠ [] then (natOfDigits ds : Int) else g), c)
    else if occursInStr "Country Rank" li_text then
      let ds := digitsOf li_text
      scanRanks rest (g, if ds ≠ [] then (natOfDigits ds : Int) else c)
    else scanRanks rest (g, c)

def get_codechef_rating (username : String) (t : Fetch CodechefPage) : Record :=
  match t with
  | .timeout => errorRecord "codechef" username (Exc.toMessage .timeout)
  | .connError => errorRecord "codechef" username (Exc.toMessage .connError)
  | .ok code page =>
    if raisesForStatus code then
      errorRecord "codechef" username (Exc.toMessage (.httpError code))
    else if code == 404 || occursInStr "page not found" (lowerStr page.bodyText) then
      notFoundRecord "codechef" username
    else
      let rating := ratingFrom page.ratingText
      let max_rating0 := maxRatingFrom page.ratingText page.parentChildren
      let ranks := scanRanks page.rankItems (0, 0)
      let max_rating := if max_rating0 < rating then rating else max_rating0
      { platform := "codechef", username := username, rating := rating,
        status := .success,
        max_rating := some max_rating,
        country_flag := some (page.countryFlagSrc.getD ""),
        country_name := some (page.countryNameText.getD ""),
        global_rank := some ranks.1,
        country_rank := some ranks.2,
        stars := some (page.starsText.getD "unrated") }

/-! ## AtCoder adapter (`get_atcoder_rating`, rating_fetcher.py:412-564) -/

/-- What the AtCoder HTML parsing observes: the stripped texts of all
`td`/`th` cells in document order. -/
structure AtcoderPage where
  cells : List String
deriving Repr, DecidableEq

/-- Accumulator of the AtCoder table scan. -/
structure AtcoderScan where
  rating : Int
  max_rating : Int
  rank : Int
deriving Repr, DecidableEq

/-- Parse the digits of a next-cell text, keeping `old` when it has none. -/
def updNum (old : Int) (t : String) : Int :=
  let ds := digitsOf t
  if ds ≠ [] then (natOfDigits ds : Int) else old

/-- The AtCoder label scan over the cell texts: a cell exactly equal to
"Rating" reads the next cell as the rating and stops the scan; a cell
containing "Highest Rating" reads the next cell as the max rating and
continues; otherwise a cell containing "Rank" reads the next cell as the
rank and continues.  The value cell itself is scanned next. -/
def scanCells : List String → AtcoderScan → AtcoderScan
  | [], st => st
  | cell_text :: rest, st =>
    if cell_text == "Rating" then
      match rest with
      | v :: _ => { st with rating := updNum st.rating v }
      | [] => st
    else if occursInStr "Highest Rating" cell_text then
      match rest with
      | v :: _ => scanCells rest { st with max_rating := updNum st.max_rating v }
      | [] => st
    else if occursInStr "Rank" cell_text then
      match rest with
      | v :: _ => scanCells rest { st with rank := updNum st.rank v }
      | [] => st
    else scanCells rest st

/-- The separate AtCoder country scan: the first cell containing
"Country" reads the next cell as the country and stops. -/
def scanCountry : List String → String → String
  | [], country => country
  | cell_text :: rest, country =>
    if occursInStr "Country" cell_text then
      match rest with
      | v :: _ => v
      | [] => country
    else scanCountry rest country

def get_atcoder_rating (username : String) (t : Fetch AtcoderPage) : Record :=
  match t with
  | .timeout => errorRecord "atcoder" username (Exc.toMessage .timeout)
  | .connError => errorRecord "atcoder" username (Exc.toMessage .connError)
  | .ok code page =>
    if code == 404 then notFoundRecord "atcoder" username
    else if raisesForStatus code then
      errorRecord "atcoder" username (Exc.toMessage (.httpError code))
    else
      let st := scanCells page.cells ⟨0, 0, 0⟩
      let country := scanCountry page.cells ""
      let max_rating := if st.max_rating < st.rating then st.rating else st.max_rating
      { platform := "atcoder", username := username, rating := st.rating,
        status := .success,
        max_rating := some max_rating,
        rank_value := some st.rank,
        country := some country }

/-! ## Dispatcher (`get_rating_by_platform`, rating_fetcher.py:566-585) -/

/-- The transport environment: the outcome each adapter's single
outbound request would observe for a given username. -/
structure Transport where
  leetcode : String → Fetch (Except String LeetcodeBody)
  codeforces : String → Fetch (Except String CFBody)
  codechef : String → Fetch CodechefPage
  atcoder : String → Fetch AtcoderPage

/-- Observable effects of a call: the batch pacing sleep, and an
adapter consuming its transport slot (a network call). -/
inductive Ev
  | sleep
  | net (platform username : String)
deriving Repr, DecidableEq

/-- `get_rating_by_platform`: normalize the platform with
`lower().strip()` and dispatch; no match returns the unsupported-platform
error record without touching the transport.  The second component is
the list of network calls performed. -/
def get_rating_by_platform (T : Transport) (platform username : String) :
    Record × List Ev :=
  let p := trimStr (lowerStr platform)
  if p == "leetcode" then
    (get_leetcode_rating username (T.leetcode username), [.net "leetcode" username])
  else if p == "codeforces" then
    (get_codeforces_rating username (T.codeforces username), [.net "codeforces" username])
  else if p == "codechef" then
    (get_codechef_rating username (T.codechef username), [.net "codechef" username])
  else if p == "atcoder" then
    (get_atcoder_rating username (T.atcoder username), [.net "atcoder" username])
  else
    ({ platform := p, username := username, rating := 0, status := .error,
       error := some ("Unsupported platform: " ++ p) }, [])

/-! ## Batch orchestrator (`get_multiple_ratings`, rating_fetcher.py:587-645) -/

/-- One input item of a batch request (`{'platform': …, 'username': …}`;
a missing key reads as `""`). -/
structure Item where
  platform : String
  username : String
deriving Repr, DecidableEq

/-- The test the loop applies before collecting a rating into
`valid_ratings`: `status == 'success' and rating > 0`. -/
def validRatingP (r : Record) : Bool :=
  r.status == Status.success && decide (0 < r.rating)

/-- The loop body of `get_multiple_ratings`, carrying the 1-based item
index `i` from `enumerate(requests_data, 1)`.  Returns the records in
order, the collected `valid_ratings`, and the effect trace (`time.sleep`
happens when `i > 1`, before the dispatcher call). -/
def batchLoop (T : Transport) : Nat → List Item → List Record × List Int × List Ev
  | _, [] => ([], [], [])
  | i, request :: rest =>
    let platform := trimStr (lowerStr request.platform)
    let username := trimStr request.username
    if platform == "" || username == "" then
      let r : Record :=
        { platform := platform, username := username, rating := 0,
          status := .error, error := some "Platform and username are required" }
      let acc := batchLoop T (i + 1) rest
      (r :: acc.1, acc.2.1, acc.2.2)
    else
      let sleeps : List Ev := if i > 1 then [.sleep] else []
      let fetched := get_rating_by_platform T platform username
      let acc := batchLoop T (i + 1) rest
      (fetched.1 :: acc.1,
       (if validRatingP fetched.1 then [fetched.1.rating] else []) ++ acc.2.1,
       sleeps ++ fetched.2 ++ acc.2.2)

/-- The aggregate a batch returns. -/
structure BatchResult where
  results : List Record
  average_rating : ℚ
  total_requests : Nat
  successful_requests : Nat
  valid_ratings_count : Nat

/-- Round-half-to-even on rationals (the model of Python `round`). -/
def roundHalfEven (q : ℚ) : ℤ :=
  let f := ⌊q⌋
  let r := q - f
  if r < 1/2 then f
  else if 1/2 < r then f + 1
  else if f % 2 = 0 then f else f + 1

/-- Model of Python `round(q, 2)`. -/
def round2 (q : ℚ) : ℚ := (roundHalfEven (q * 100) : ℚ) / 100

/-- `get_multiple_ratings`: run the loop, then aggregate.  The second
component is the effect trace of the whole batch. -/
def get_multiple_ratings (T : Transport) (requests_data : List Item) :
    BatchResult × List Ev :=
  let looped := batchLoop T 1 requests_data
  let results := looped.1
  let valid_ratings := looped.2.1
  let average_rating : ℚ :=
    if valid_ratings ≠ [] then
      ((valid_ratings.sum : ℤ) : ℚ) / (valid_ratings.length : ℚ)
    else 0
  let successful_requests :=
    (results.filter (fun r => r.status == Status.success)).length
  ({ results := results,
     average_rating := round2 average_rating,
     total_requests := requests_data.length,
     successful_requests := successful_requests,
     valid_ratings_count := valid_ratings.length }, looped.2.2)

/-! ## Derived per-item normal forms

The loop of `get_multiple_ratings` is proved below to act independently
on each item; these definitions give the record and the effect trace a
single item contributes. -/

/-- The record the batch produces for one input item. -/
def itemRecord (T : Transport) (request : Item) : Record :=
  let platform := trimStr (lowerStr request.platform)
  let username := trimStr request.username
  if platform == "" || username == "" then
    { platform := platform, username := username, rating := 0,
      status := .error, error := some "Platform and username are required" }
  else (get_rating_by_platform T platform username).1

/-- The effects the batch performs for one input item at 1-based index `i`. -/
def itemEvents (T : Transport) (i : Nat) (request : Item) : List Ev :=
  let platform := trimStr (lowerStr request.platform)
  let username := trimStr request.username
  if platform == "" || username == "" then []
  else (if i > 1 then [Ev.sleep] else []) ++ (get_rating_by_platform T platform username).2

/-- The whole-batch effect trace, item by item from index `i`. -/
def traceFrom (T : Transport) : Nat → List Item → List Ev
  | _, [] => []
  | i, request :: rest => itemEvents T i request ++ traceFrom T (i + 1) rest

/-- The ratings of the records that pass `validRatingP`, in order. -/
def validsOf (rs : List Record) : List Int :=
  (rs.filter validRatingP).map Record.rating

/-! ## Concrete fixtures used by witnesses and counterexamples -/

/-- A transport where every request times out. -/
def Ttriv : Transport :=
  { leetcode := fun _ => .timeout, codeforces := fun _ => .timeout,
    codechef := fun _ => .timeout, atcoder := fun _ => .timeout }

/-- A CodeChef profile page with no matching markup at all. -/
def ccEmptyPage : CodechefPage :=
  { bodyText := "<html></html>", ratingText := none, parentChildren := none,
    countryFlagSrc := none, countryNameText := none, rankItems := [],
    starsText := none }

theorem batchLoop_results (T : Transport) (items : List Item) :
    ∀ i : Nat, (batchLoop T i items).1 = items.map (itemRecord T) := by
  induction items with
  | nil => intro i; simp [batchLoop]
  | cons request rest ih =>
    intro i
    by_cases h : (trimStr (lowerStr request.platform) == "" || trimStr request.username == "") = true
    · simp [batchLoop, itemRecord, h, ih]
    · simp [batchLoop, itemRecord, h, ih]

theorem batchLoop_valids (T : Transport) (items : List Item) :
    ∀ i : Nat, (batchLoop T i items).2.1 = validsOf (items.map (itemRecord T)) := by
  induction items with
  | nil => intro i; simp [batchLoop, validsOf]
  | cons request rest ih =>
    intro i
    by_cases h : (trimStr (lowerStr request.platform) == "" || trimStr request.username == "") = true
    · simp [batchLoop, h, ih, validsOf, List.filter_cons, itemRecord, validRatingP]
    · by_cases hv : validRatingP (itemRecord T request) = true
      · have : validRatingP (get_rating_by_platform T (trimStr (lowerStr request.platform)) (trimStr request.username)).1 = true := by
          simpa [itemRecord, h] using hv
        simp [batchLoop, h, ih, validsOf, List.filter_cons, this, itemRecord]
      · have hv' : validRatingP (itemRecord T request) = false := by
          simpa using hv
        have : validRatingP (get_rating_by_platform T (trimStr (lowerStr request.platform)) (trimStr request.username)).1 = false := by
          simpa [itemRecord, h] using hv'
        simp [batchLoop, h, ih, validsOf, List.filter_cons, this, itemRecord]

theorem batchLoop_trace (T : Transport) (items : List Item) :
    ∀ i : Nat, (batchLoop T i items).2.2 = traceFrom T i items := by
  induction items with
  | nil => intro i; simp [batchLoop, traceFrom]
  | cons request rest ih =>
    intro i
    by_cases h : (trimStr (lowerStr request.platform) == "" || trimStr request.username == "") = true
    · simp [batchLoop, traceFrom, itemEvents, h, ih]
    · simp [batchLoop, traceFrom, itemEvents, h, ih]

/-- The batch, in per-item normal form: one record per input item in
input order, aggregates over the valid ratings of those records, and the
per-item effect trace. -/
theorem get_multiple_ratings_eq (T : Transport) (items : List Item) :
    get_multiple_ratings T items =
      ({ results := items.map (itemRecord T),
         average_rating :=
           round2 (if validsOf (items.map (itemRecord T)) = [] then 0
                   else (((validsOf (items.map (itemRecord T))).sum : ℤ) : ℚ) /
                        ((validsOf (items.map (itemRecord T))).length : ℚ)),
         total_requests := items.length,
         successful_requests :=
           ((items.map (itemRecord T)).filter (fun r => r.status == Status.success)).length,
         valid_ratings_count := (validsOf (items.map (itemRecord T))).length },
       traceFrom T 1 items) := by
  simp only [get_multiple_ratings]
  rw [batchLoop_results, batchLoop_valids, batchLoop_trace]
  by_cases h : validsOf (items.map (itemRecord T)) = [] <;> simp [h]

theorem round2_zero : round2 0 = 0 := by
  norm_num [round2, roundHalfEven]

/-! ## Per-adapter helper lemmas -/

theorem leetcode_username (username : String) (t : Fetch (Except String LeetcodeBody)) :
    (get_leetcode_rating username t).username = username := by
  cases t with
  | timeout => rfl
  | connError => rfl
  | ok code body =>
    cases hrs : raisesForStatus code with
    | true => simp [get_leetcode_rating, hrs, errorRecord]
    | false =>
      cases body with
      | error msg => simp [get_leetcode_rating, hrs, errorRecord]
      | ok data =>
        cases hm : data.matchedUser with
        | some u => simp [get_leetcode_rating, hrs, hm]
        | none => simp [get_leetcode_rating, hrs, hm, notFoundRecord]

theorem codeforces_username (username : String) (t : Fetch (Except String CFBody)) :
    (get_codeforces_rating username t).username = username := by
  cases t with
  | timeout => rfl
  | connError => rfl
  | ok code body =>
    cases hrs : raisesForStatus code with
    | true => simp [get_codeforces_rating, hrs, errorRecord]
    | false =>
      cases body with
      | error msg => simp [get_codeforces_rating, hrs, errorRecord]
      | ok data =>
        cases hok : data.status == "OK" with
        | false => simp [get_codeforces_rating, hrs, hok, notFoundRecord]
        | true =>
          cases hr : data.result with
          | nil => simp [get_codeforces_rating, hrs, hok, hr, notFoundRecord]
          | cons u us => simp [get_codeforces_rating, hrs, hok, hr]

theorem codechef_username (username : String) (t : Fetch CodechefPage) :
    (get_codechef_rating username t).username = username := by
  cases t with
  | timeout => rfl
  | connError => rfl
  | ok code page =>
    cases hrs : raisesForStatus code with
    | true => simp [get_codechef_rating, hrs, errorRecord]
    | false =>
      cases hnf : (code == 404 || occursInStr "page not found" (lowerStr page.bodyText)) with
      | true => simp [get_codechef_rating, hrs, hnf, notFoundRecord]
      | false => simp [get_codechef_rating, hrs, hnf]

theorem atcoder_username (username : String) (t : Fetch AtcoderPage) :
    (get_atcoder_rating username t).username = username := by
  cases t with
  | timeout => rfl
  | connError => rfl
  | ok code page =>
    cases h404 : code == 404 with
    | true => simp [get_atcoder_rating, h404, notFoundRecord]
    | false =>
      cases hrs : raisesForStatus code with
      | true => simp [get_atcoder_rating, h404, hrs, errorRecord]
      | false => simp [get_atcoder_rating, h404, hrs]

theorem dispatch_username (T : Transport) (platform username : String) :
    (get_rating_by_platform T platform username).1.username = username := by
  simp only [get_rating_by_platform]
  repeat' split
  · exact leetcode_username username (T.leetcode username)
  · exact codeforces_username username (T.codeforces username)
  · exact codechef_username username (T.codechef username)
  · exact atcoder_username username (T.atcoder username)
  · rfl

theorem itemRecord_username (T : Transport) (request : Item) :
    (itemRecord T request).username = trimStr request.username := by
  simp only [itemRecord]
  split
  · rfl
  · exact dispatch_username T _ _

/-- A record is classified: its status is one of the three terminal
statuses, and any non-success status carries an error message. -/
def classified (r : Record) : Prop :=
  (r.status = Status.success ∨ r.status = Status.user_not_found ∨
   r.status = Status.error) ∧
  (r.status ≠ Status.success → r.error ≠ none)

theorem classified_errorRecord (platform username msg : String) :
    classified (errorRecord platform username msg) := by
  simp [classified, errorRecord]

theorem classified_notFoundRecord (platform username : String) :
    classified (notFoundRecord platform username) := by
  simp [classified, notFoundRecord]

theorem leetcode_classified (username : String) (t : Fetch (Except String LeetcodeBody)) :
    classified (get_leetcode_rating username t) := by
  cases t with
  | timeout => exact classified_errorRecord _ _ _
  | connError => exact classified_errorRecord _ _ _
  | ok code body =>
    cases hrs : raisesForStatus code with
    | true =>
      simpa [get_leetcode_rating, hrs] using
        classified_errorRecord "leetcode" username (Exc.toMessage (.httpError code))
    | false =>
      cases body with
      | error msg =>
        simpa [get_leetcode_rating, hrs] using
          classified_errorRecord "leetcode" username (Exc.toMessage (.other msg))
      | ok data =>
        cases hm : data.matchedUser with
        | some u => simp [get_leetcode_rating, hrs, hm, classified]
        | none =>
          simpa [get_leetcode_rating, hrs, hm] using
            classified_notFoundRecord "leetcode" username

theorem codeforces_classified (username : String) (t : Fetch (Except String CFBody)) :
    classified (get_codeforces_rating username t) := by
  cases t with
  | timeout => exact classified_errorRecord _ _ _
  | connError => exact classified_errorRecord _ _ _
  | ok code body =>
    cases hrs : raisesForStatus code with
    | true =>
      simpa [get_codeforces_rating, hrs] using
        classified_errorRecord "codeforces" username (Exc.toMessage (.httpError code))
    | false =>
      cases body with
      | error msg =>
        simpa [get_codeforces_rating, hrs] using
          classified_errorRecord "codeforces" username (Exc.toMessage (.other msg))
      | ok data =>
        cases hok : data.status == "OK" with
        | false =>
          simpa [get_codeforces_rating, hrs, hok] using
            classified_notFoundRecord "codeforces" username
        | true =>
          cases hr : data.result with
          | nil =>
            simpa [get_codeforces_rating, hrs, hok, hr] using
              classified_notFoundRecord "codeforces" username
          | cons u us => simp [get_codeforces_rating, hrs, hok, hr, classified]

theorem codechef_classified (username : String) (t : Fetch CodechefPage) :
    classified (get_codechef_rating username t) := by
  cases t with
  | timeout => exact classified_errorRecord _ _ _
  | connError => exact classified_errorRecord _ _ _
  | ok code page =>
    cases hrs : raisesForStatus code with
    | true =>
      simpa [get_codechef_rating, hrs] using
        classified_errorRecord "codechef" username (Exc.toMessage (.httpError code))
    | false =>
      cases hnf : (code == 404 || occursInStr "page not found" (lowerStr page.bodyText)) with
      | true =>
        simpa [get_codechef_rating, hrs, hnf] using
          classified_notFoundRecord "codechef" username
      | false => simp [get_codechef_rating, hrs, hnf, classified]

theorem atcoder_classified (username : String) (t : Fetch AtcoderPage) :
    classified (get_atcoder_rating username t) := by
  cases t with
  | timeout => exact classified_errorRecord _ _ _
  | connError => exact classified_errorRecord _ _ _
  | ok code page =>
    cases h404 : code == 404 with
    | true =>
      simpa [get_atcoder_rating, h404] using
        classified_notFoundRecord "atcoder" username
    | false =>
      cases hrs : raisesForStatus code with
      | true =>
        simpa [get_atcoder_rating, h404, hrs] using
          classified_errorRecord "atcoder" username (Exc.toMessage (.httpError code))
      | false => simp [get_atcoder_rating, h404, hrs, classified]

theorem dispatch_classified (T : Transport) (platform username : String) :
    classified (get_rating_by_platform T platform username).1 := by
  simp only [get_rating_by_platform]
  repeat' split
  · exact leetcode_classified username (T.leetcode username)
  · exact codeforces_classified username (T.codeforces username)
  · exact codechef_classified username (T.codechef username)
  · exact atcoder_classified username (T.atcoder username)
  · simp [classified]

theorem scanRanks_no_match (items : List String) (st : Int × Int)
    (h : ∀ t ∈ items, occursInStr "Global Rank" t = false ∧
         occursInStr "Country Rank" t = false) :
    scanRanks items st = st := by
  induction items generalizing st with
  | nil => obtain ⟨g, c⟩ := st; rfl
  | cons t rest ih =>
    obtain ⟨g, c⟩ := st
    have ht := h t (by simp)
    have hrest : ∀ u ∈ rest, occursInStr "Global Rank" u = false ∧
        occursInStr "Country Rank" u = false := fun u hu => h u (by simp [hu])
    simp [scanRanks, ht.1, ht.2, ih _ hrest]

theorem scanCells_no_match (cells : List String) (st : AtcoderScan)
    (h : ∀ cl ∈ cells, cl ≠ "Rating" ∧ occursInStr "Highest Rating" cl = false ∧
         occursInStr "Rank" cl = false) :
    scanCells cells st = st := by
  induction cells generalizing st with
  | nil => rfl
  | cons cl rest ih =>
    have hc := h cl (by simp)
    have hrest : ∀ u ∈ rest, u ≠ "Rating" ∧ occursInStr "Highest Rating" u = false ∧
        occursInStr "Rank" u = false := fun u hu => h u (by simp [hu])
    have hbeq : (cl == "Rating") = false := beq_eq_false_iff_ne.mpr hc.1
    simp [scanCells, hbeq, hc.2.1, hc.2.2, ih _ hrest]

theorem scanCountry_no_match (cells : List String) (country0 : String)
    (h : ∀ cl ∈ cells, occursInStr "Country" cl = false) :
    scanCountry cells country0 = country0 := by
  induction cells with
  | nil => rfl
  | cons cl rest ih =>
    have hc := h cl (by simp)
    have hrest : ∀ u ∈ rest, occursInStr "Country" u = false :=
      fun u hu => h u (by simp [hu])
    simp [scanCountry, hc, ih hrest]

/-! ## Claim theorems -/

/-- Claim C2: for every input list of batch items, the batch result has
`len(results) = total_requests =` the input's length, with one Rating
Record per item in input order (`results = items.map (itemRecord T)`);
an item whose platform or username is empty after trimming still
produces exactly one record, with status `error` and message
"Platform and username are required", with no adapter invoked for it
(its effect trace is empty), and — since each item's record is an
independent function of that item — one item's failure never prevents
records for subsequent items. -/
theorem batch_one_record_per_item (T : Transport) (items : List Item) :
    (get_multiple_ratings T items).1.results = items.map (itemRecord T) ∧
    (get_multiple_ratings T items).1.results.length = items.length ∧
    (get_multiple_ratings T items).1.total_requests = items.length ∧
    ∀ request : Item,
      (trimStr (lowerStr request.platform) = "" ∨ trimStr request.username = "") →
        itemRecord T request =
          { platform := trimStr (lowerStr request.platform),
            username := trimStr request.username, rating := 0,
            status := .error,
            error := some "Platform and username are required" } ∧
        ∀ i, itemEvents T i request = [] := by
  refine ⟨?_, ?_, ?_, ?_⟩
  · rw [get_multiple_ratings_eq]
  · rw [get_multiple_ratings_eq]; simp
  · rw [get_multiple_ratings_eq]
  · intro request h
    have hb : (trimStr (lowerStr request.platform) == "" ||
        trimStr request.username == "") = true := by
      rcases h with h | h <;> simp [h]
    exact ⟨by simp [itemRecord, hb], fun i => by simp [itemEvents, hb]⟩

theorem batch_one_record_per_item_witness :
    (trimStr (lowerStr " ") = "" ∨ trimStr "bob" = "") ∧
    itemRecord Ttriv ⟨" ", "bob"⟩ =
      { platform := "", username := "bob", rating := 0, status := Status.error,
        error := some "Platform and username are required" } ∧
    itemEvents Ttriv 3 ⟨" ", "bob"⟩ = [] := by
  have h := (batch_one_record_per_item Ttriv []).2.2.2 ⟨" ", "bob"⟩ (Or.inl (by decide))
  exact ⟨Or.inl (by decide), h.1.trans (by decide), h.2 3⟩

/-- Claim C3: for every batch, `average_rating` is the mean of the
ratings of exactly the records with `status = success` and positive
rating, rounded to two decimals, and `0` when no such record exists;
`valid_ratings_count` counts those records and `successful_requests`
counts all success records. -/
theorem batch_average_spec (T : Transport) (items : List Item) :
    (get_multiple_ratings T items).1.average_rating =
      round2 (if validsOf (get_multiple_ratings T items).1.results = [] then 0
              else (((validsOf (get_multiple_ratings T items).1.results).sum : ℤ) : ℚ) /
                   ((validsOf (get_multiple_ratings T items).1.results).length : ℚ)) ∧
    (validsOf (get_multiple_ratings T items).1.results = [] →
      (get_multiple_ratings T items).1.average_rating = 0) ∧
    (get_multiple_ratings T items).1.valid_ratings_count =
      ((get_multiple_ratings T items).1.results.filter validRatingP).length ∧
    (get_multiple_ratings T items).1.successful_requests =
      ((get_multiple_ratings T items).1.results.filter
        (fun r => r.status == Status.success)).length := by
  rw [get_multiple_ratings_eq]
  refine ⟨rfl, ?_, ?_, rfl⟩
  · intro h
    simp only [h, if_pos]
    exact round2_zero
  · simp [validsOf]

theorem batch_average_spec_witness :
    validsOf (get_multiple_ratings Ttriv []).1.results = [] ∧
    (get_multiple_ratings Ttriv []).1.average_rating = 0 :=
  ⟨by decide, (batch_average_spec Ttriv []).2.1 (by decide)⟩

/-- Claim C5: for every platform string whose trimmed, lowercased form
is outside the supported set, the dispatcher returns a record with
status `error`, rating `0`, platform equal to the normalized string and
message "Unsupported platform: <normalized>", and performs no network
call (its effect trace is empty, so no adapter consumed its transport
slot). -/
theorem dispatch_unsupported (T : Transport) (platform username : String)
    (h : trimStr (lowerStr platform) ∉
      (["leetcode", "codeforces", "codechef", "atcoder"] : List String)) :
    get_rating_by_platform T platform username =
      ({ platform := trimStr (lowerStr platform), username := username,
         rating := 0, status := .error,
         error := some ("Unsupported platform: " ++ trimStr (lowerStr platform)) },
       []) := by
  simp only [List.mem_cons, List.not_mem_nil, or_false, not_or] at h
  obtain ⟨h1, h2, h3, h4⟩ := h
  simp [get_rating_by_platform, h1, h2, h3, h4]

theorem dispatch_unsupported_witness :
    (trimStr (lowerStr " FooBar ") ∉
      (["leetcode", "codeforces", "codechef", "atcoder"] : List String)) ∧
    get_rating_by_platform Ttriv " FooBar " "Alice" =
      ({ platform := "foobar", username := "Alice", rating := 0,
         status := Status.error,
         error := some "Unsupported platform: foobar" }, []) := by
  have h := dispatch_unsupported Ttriv " FooBar " "Alice" (by decide)
  exact ⟨by decide, h.trans (by decide)⟩

/-- Claim C10 counterexample: the single-dispatch entry point
`get_rating_by_platform` does not trim the username; dispatching
" alice " on leetcode yields a record whose username is the untrimmed
" alice ", while the claim requires the trimmed "alice". -/
theorem dispatch_username_untrimmed :
    (get_rating_by_platform Ttriv "leetcode" " alice ").1.username = " alice " ∧
    trimStr " alice " = "alice" ∧ (" alice " : String) ≠ "alice" := by decide

/-- Claim C10 amended: the single-dispatch entry point echoes the
username exactly as supplied (it never trims it); the batch entry point
trims each item's username before dispatching, so every batch record's
username is the supplied username with surrounding whitespace trimmed
and casing unmodified. -/
theorem username_echo (T : Transport) (platform username : String)
    (items : List Item) :
    (get_rating_by_platform T platform username).1.username = username ∧
    (get_multiple_ratings T items).1.results.map Record.username =
      items.map (fun request => trimStr request.username) := by
  refine ⟨dispatch_username T platform username, ?_⟩
  rw [get_multiple_ratings_eq]
  simp [List.map_map, Function.comp, itemRecord_username]

/-- Claim C6: for every username and every transport outcome, each
adapter and the dispatcher return a Rating Record (they are total
functions of the outcome — no exception propagates), the record's
status is one of `success`, `user_not_found`, `error` (carrying an
error message whenever the status is not `success`), and the failure
outcomes — timeout, connection failure, and a 4xx/5xx status — always
end in a non-success status. -/
theorem no_exception_escapes (T : Transport) (platform username : String) :
    (∀ t, classified (get_leetcode_rating username t)) ∧
    (∀ t, classified (get_codeforces_rating username t)) ∧
    (∀ t, classified (get_codechef_rating username t)) ∧
    (∀ t, classified (get_atcoder_rating username t)) ∧
    classified (get_rating_by_platform T platform username).1 ∧
    (get_leetcode_rating username .timeout).status = Status.error ∧
    (get_leetcode_rating username .connError).status = Status.error ∧
    (get_codeforces_rating username .timeout).status = Status.error ∧
    (get_codeforces_rating username .connError).status = Status.error ∧
    (get_codechef_rating username .timeout).status = Status.error ∧
    (get_codechef_rating username .connError).status = Status.error ∧
    (get_atcoder_rating username .timeout).status = Status.error ∧
    (get_atcoder_rating username .connError).status = Status.error ∧
    (∀ code body, raisesForStatus code = true →
      (get_leetcode_rating username (.ok code body)).status ≠ Status.success) ∧
    (∀ code body, raisesForStatus code = true →
      (get_codeforces_rating username (.ok code body)).status ≠ Status.success) ∧
    (∀ code page, raisesForStatus code = true →
      (get_codechef_rating username (.ok code page)).status ≠ Status.success) ∧
    (∀ code page, raisesForStatus code = true →
      (get_atcoder_rating username (.ok code page)).status ≠ Status.success) := by
  refine ⟨leetcode_classified username, codeforces_classified username,
    codechef_classified username, atcoder_classified username,
    dispatch_classified T platform username,
    rfl, rfl, rfl, rfl, rfl, rfl, rfl, rfl, ?_, ?_, ?_, ?_⟩
  · intro code body h
    simp [get_leetcode_rating, h, errorRecord]
  · intro code body h
    simp [get_codeforces_rating, h, errorRecord]
  · intro code page h
    simp [get_codechef_rating, h, errorRecord]
  · intro code page h
    cases h404 : code == 404 with
    | true => simp [get_atcoder_rating, h404, notFoundRecord]
    | false => simp [get_atcoder_rating, h404, h, errorRecord]

theorem no_exception_escapes_witness :
    raisesForStatus 500 = true ∧
    (get_leetcode_rating "u" (Fetch.ok 500 (Except.ok ⟨none, none⟩))).status ≠
      Status.success ∧
    (get_codechef_rating "u" Fetch.timeout).status = Status.error ∧
    ((get_rating_by_platform Ttriv "codeforces" "u").1.status ≠ Status.success →
      (get_rating_by_platform Ttriv "codeforces" "u").1.error ≠ none) := by
  obtain ⟨hl, hcf, hcc, hac, hd, hrest⟩ := no_exception_escapes Ttriv "codeforces" "u"
  refine ⟨by decide, ?_, hrest.2.2.2.1, hd.2⟩
  exact hrest.2.2.2.2.2.2.2.2.1 500 (Except.ok ⟨none, none⟩) (by decide)

/-- A CodeChef page whose body carries the not-found marker phrase. -/
def ccNotFoundPage : CodechefPage :=
  { ccEmptyPage with bodyText := "<h1>Page Not Found</h1>" }

/-- Claim C1 counterexample: a 404 response makes the CodeChef adapter's
`raise_for_status()` raise before the 404 check is reached, so the
result is an `error` record carrying the stringified `HTTPError` — not
the `user_not_found` record the claim requires. -/
theorem codechef_404_is_error :
    (get_codechef_rating "tourist" (Fetch.ok 404 ccEmptyPage)).status =
      Status.error ∧
    (get_codechef_rating "tourist" (Fetch.ok 404 ccEmptyPage)).status ≠
      Status.user_not_found ∧
    (get_codechef_rating "tourist" (Fetch.ok 404 ccEmptyPage)).error =
      some "HTTP error 404" := by decide

/-- Claim C1 amended: failures are classified in priority order — a
transport timeout gives `error` "Request timeout"; a transport
connection failure gives `error` "Connection error"; a 4xx/5xx response
makes `raise_for_status()` raise and gives `error` with the stringified
`HTTPError` (this includes a CodeChef 404 — the adapters' own 404
checks sit after `raise_for_status()` — with the single exception of
AtCoder, which tests for 404 first and gives `user_not_found`); an
explicit not-found signal on a non-raising response (LeetCode's missing
matched-user object, Codeforces' non-"OK" status or empty result list,
CodeChef's case-insensitive not-found marker phrase in the body) gives
`user_not_found`; any other exception during parsing gives `error` with
the stringified cause. -/
theorem failure_classification (username : String) :
    (get_leetcode_rating username .timeout =
      errorRecord "leetcode" username "Request timeout") ∧
    (get_codeforces_rating username .timeout =
      errorRecord "codeforces" username "Request timeout") ∧
    (get_codechef_rating username .timeout =
      errorRecord "codechef" username "Request timeout") ∧
    (get_atcoder_rating username .timeout =
      errorRecord "atcoder" username "Request timeout") ∧
    (get_leetcode_rating username .connError =
      errorRecord "leetcode" username "Connection error") ∧
    (get_codeforces_rating username .connError =
      errorRecord "codeforces" username "Connection error") ∧
    (get_codechef_rating username .connError =
      errorRecord "codechef" username "Connection error") ∧
    (get_atcoder_rating username .connError =
      errorRecord "atcoder" username "Connection error") ∧
    (∀ code body, raisesForStatus code = true →
      get_leetcode_rating username (.ok code body) =
        errorRecord "leetcode" username (Exc.toMessage (.httpError code))) ∧
    (∀ code body, raisesForStatus code = true →
      get_codeforces_rating username (.ok code body) =
        errorRecord "codeforces" username (Exc.toMessage (.httpError code))) ∧
    (∀ code page, raisesForStatus code = true →
      get_codechef_rating username (.ok code page) =
        errorRecord "codechef" username (Exc.toMessage (.httpError code))) ∧
    (∀ page, get_atcoder_rating username (.ok 404 page) =
      notFoundRecord "atcoder" username) ∧
    (∀ code page, code ≠ 404 → raisesForStatus code = true →
      get_atcoder_rating username (.ok code page) =
        errorRecord "atcoder" username (Exc.toMessage (.httpError code))) ∧
    (∀ code data, raisesForStatus code = false → data.matchedUser = none →
      get_leetcode_rating username (.ok code (.ok data)) =
        notFoundRecord "leetcode" username) ∧
    (∀ code data, raisesForStatus code = false →
      (data.status = "OK" → data.result = []) →
      get_codeforces_rating username (.ok code (.ok data)) =
        notFoundRecord "codeforces" username) ∧
    (∀ code page, raisesForStatus code = false →
      occursInStr "page not found" (lowerStr page.bodyText) = true →
      get_codechef_rating username (.ok code page) =
        notFoundRecord "codechef" username) ∧
    (∀ code msg, raisesForStatus code = false →
      get_leetcode_rating username (.ok code (.error msg)) =
        errorRecord "leetcode" username msg) ∧
    (∀ code msg, raisesForStatus code = false →
      get_codeforces_rating username (.ok code (.error msg)) =
        errorRecord "codeforces" username msg) := by
  refine ⟨rfl, rfl, rfl, rfl, rfl, rfl, rfl, rfl, ?_, ?_, ?_, ?_, ?_, ?_, ?_, ?_, ?_, ?_⟩
  · intro code body h; simp [get_leetcode_rating, h]
  · intro code body h; simp [get_codeforces_rating, h]
  · intro code page h; simp [get_codechef_rating, h]
  · intro page; rfl
  · intro code page hne h
    have h404 : (code == 404) = false := beq_eq_false_iff_ne.mpr hne
    simp [get_atcoder_rating, h404, h]
  · intro code data h hm; simp [get_leetcode_rating, h, hm]
  · intro code data h hres
    cases hok : data.status == "OK" with
    | false => simp [get_codeforces_rating, h, hok]
    | true =>
      have : data.result = [] := hres (by simpa using hok)
      simp [get_codeforces_rating, h, hok, this]
  · intro code page h hmark; simp [get_codechef_rating, h, hmark]
  · intro code msg h; simp [get_leetcode_rating, h, Exc.toMessage]
  · intro code msg h; simp [get_codeforces_rating, h, Exc.toMessage]

theorem failure_classification_witness :
    raisesForStatus 500 = true ∧
    get_leetcode_rating "u" (Fetch.ok 500 (Except.error "boom")) =
      errorRecord "leetcode" "u" (Exc.toMessage (Exc.httpError 500)) ∧
    raisesForStatus 200 = false ∧
    occursInStr "page not found" (lowerStr ccNotFoundPage.bodyText) = true ∧
    get_codechef_rating "u" (Fetch.ok 200 ccNotFoundPage) =
      notFoundRecord "codechef" "u" ∧
    get_codeforces_rating "u" (Fetch.ok 200 (Except.error "boom")) =
      errorRecord "codeforces" "u" "boom" := by
  obtain ⟨-, -, -, -, -, -, -, -, hl5, -, -, -, -, -, -, hccnf, -, hcf⟩ :=
    failure_classification "u"
  exact ⟨by decide, hl5 500 (Except.error "boom") (by decide), by decide,
    by decide, hccnf 200 ccNotFoundPage (by decide) (by decide),
    hcf 200 "boom" (by decide)⟩

/-- A Codeforces body whose source data violates `maxRating ≥ rating`. -/
def cfBadBody : CFBody :=
  { status := "OK",
    result := [{ rating := some 2000, maxRating := some 1500, rank := none,
                 maxRank := none, contribution := none }] }

/-- Claim C4 counterexample: the Codeforces adapter copies `rating` and
`maxRating` from the source response without any normalization, so a
source claiming `rating = 2000, maxRating = 1500` yields a success
record with `max_rating < rating`. -/
theorem codeforces_no_clamp :
    (get_codeforces_rating "u" (Fetch.ok 200 (Except.ok cfBadBody))).rating =
      2000 ∧
    (get_codeforces_rating "u" (Fetch.ok 200 (Except.ok cfBadBody))).max_rating =
      some 1500 ∧
    (get_codeforces_rating "u" (Fetch.ok 200 (Except.ok cfBadBody))).status =
      Status.success ∧
    ¬ ((2000 : Int) ≤ 1500) := by decide

/-- Claim C4 amended: the CodeChef and AtCoder adapters enforce
`max_rating ≥ rating` themselves (`if max_rating < rating:
max_rating = rating`), so every record they produce with `max_rating`
present satisfies it; the LeetCode adapter never emits `max_rating`;
the Codeforces adapter copies both values from the source unchanged and
does not enforce the invariant. -/
theorem max_rating_clamped (username : String) :
    (∀ t m, (get_codechef_rating username t).max_rating = some m →
      (get_codechef_rating username t).rating ≤ m) ∧
    (∀ t m, (get_atcoder_rating username t).max_rating = some m →
      (get_atcoder_rating username t).rating ≤ m) ∧
    (∀ t, (get_leetcode_rating username t).max_rating = none) := by
  refine ⟨?_, ?_, ?_⟩
  · intro t m hm
    cases t with
    | timeout => simp [get_codechef_rating, errorRecord] at hm
    | connError => simp [get_codechef_rating, errorRecord] at hm
    | ok code page =>
      cases hrs : raisesForStatus code with
      | true => simp [get_codechef_rating, hrs, errorRecord] at hm
      | false =>
        cases hnf : (code == 404 ||
            occursInStr "page not found" (lowerStr page.bodyText)) with
        | true => simp [get_codechef_rating, hrs, hnf, notFoundRecord] at hm
        | false =>
          simp only [get_codechef_rating, hrs, hnf, Bool.false_eq_true,
            if_false, Option.some.injEq] at hm ⊢
          subst hm
          split <;> omega
  · intro t m hm
    cases t with
    | timeout => simp [get_atcoder_rating, errorRecord] at hm
    | connError => simp [get_atcoder_rating, errorRecord] at hm
    | ok code page =>
      cases h404 : code == 404 with
      | true => simp [get_atcoder_rating, h404, notFoundRecord] at hm
      | false =>
        cases hrs : raisesForStatus code with
        | true => simp [get_atcoder_rating, h404, hrs, errorRecord] at hm
        | false =>
          simp only [get_atcoder_rating, h404, hrs, Bool.false_eq_true,
            if_false, Option.some.injEq] at hm ⊢
          subst hm
          split <;> omega
  · intro t
    cases t with
    | timeout => rfl
    | connError => rfl
    | ok code body =>
      cases hrs : raisesForStatus code with
      | true => simp [get_leetcode_rating, hrs, errorRecord]
      | false =>
        cases body with
        | error msg => simp [get_leetcode_rating, hrs, errorRecord]
        | ok data =>
          cases hm : data.matchedUser with
          | some u => simp [get_leetcode_rating, hrs, hm]
          | none => simp [get_leetcode_rating, hrs, hm, notFoundRecord]

/-- A CodeChef page that yields a positive rating and no max rating. -/
def ccRatedPage : CodechefPage := { ccEmptyPage with ratingText := some "1500" }

theorem max_rating_clamped_witness :
    (get_codechef_rating "u" (Fetch.ok 200 ccRatedPage)).max_rating =
      some 1500 ∧
    (get_codechef_rating "u" (Fetch.ok 200 ccRatedPage)).rating ≤ 1500 :=
  ⟨by decide, (max_rating_clamped "u").1 (Fetch.ok 200 ccRatedPage) 1500 (by decide)⟩

/-- An AtCoder page with a "Highest Rating" label before a "Rating"
label, and a page with two "Country" labels. -/
def acPageHighestFirst : AtcoderPage :=
  { cells := ["Highest Rating", "2000", "Rating", "1500"] }

/-- Claim C7 counterexample: a "Highest Rating" match does not terminate
the AtCoder scan — the scan continues and still reads a later "Rating"
cell (rating 1500 instead of the 0 the claim's early termination would
leave) — and the separate country scan does terminate at its first
"Country" match (reading "Japan", not the "USA" a continuing scan's
last match would leave). -/
theorem atcoder_scan_counterexample :
    (get_atcoder_rating "u" (Fetch.ok 200 acPageHighestFirst)).rating = 1500 ∧
    (get_atcoder_rating "u" (Fetch.ok 200 acPageHighestFirst)).max_rating =
      some 2000 ∧
    scanCountry ["Country", "Japan", "Country", "USA"] "" = "Japan" := by decide

/-- Claim C7 amended: in the AtCoder linear scan over cell texts in
document order, a cell whose trimmed text equals "Rating" reads the
next cell as the rating and terminates the scan; a cell containing
"Highest Rating" reads the next cell as the max rating and does NOT
terminate the scan; a cell containing "Rank" reads the next cell as the
rank and does not terminate the scan; the country is read by a separate
scan whose first cell containing "Country" reads the next cell as the
country and terminates that scan.  The adapter's rating and country on
a non-404, non-raising response are exactly the results of these
scans. -/
theorem atcoder_label_scan (st : AtcoderScan) (c v : String)
    (rest : List String) (country0 : String) (username : String)
    (code : Nat) (page : AtcoderPage) :
    (scanCells ("Rating" :: v :: rest) st =
      { st with rating := updNum st.rating v }) ∧
    (c ≠ "Rating" → occursInStr "Highest Rating" c = true →
      scanCells (c :: v :: rest) st =
        scanCells (v :: rest) { st with max_rating := updNum st.max_rating v }) ∧
    (c ≠ "Rating" → occursInStr "Highest Rating" c = false →
      occursInStr "Rank" c = true →
      scanCells (c :: v :: rest) st =
        scanCells (v :: rest) { st with rank := updNum st.rank v }) ∧
    (occursInStr "Country" c = true →
      scanCountry (c :: v :: rest) country0 = v) ∧
    (code ≠ 404 → raisesForStatus code = false →
      (get_atcoder_rating username (.ok code page)).rating =
        (scanCells page.cells ⟨0, 0, 0⟩).rating ∧
      (get_atcoder_rating username (.ok code page)).country =
        some (scanCountry page.cells "")) := by
  refine ⟨by simp [scanCells], ?_, ?_, ?_, ?_⟩
  · intro hne h
    have hbeq : (c == "Rating") = false := beq_eq_false_iff_ne.mpr hne
    simp [scanCells, hbeq, h]
  · intro hne hh h
    have hbeq : (c == "Rating") = false := beq_eq_false_iff_ne.mpr hne
    simp [scanCells, hbeq, hh, h]
  · intro h
    simp [scanCountry, h]
  · intro hne hrs
    have h404 : (code == 404) = false := beq_eq_false_iff_ne.mpr hne
    constructor <;> simp [get_atcoder_rating, h404, hrs]

theorem atcoder_label_scan_witness :
    (("Highest Rating" : String) ≠ "Rating") ∧
    occursInStr "Highest Rating" "Highest Rating" = true ∧
    scanCells ["Highest Rating", "2000", "Rating", "1500"] ⟨0, 0, 0⟩ =
      scanCells ["2000", "Rating", "1500"] ⟨0, 2000, 0⟩ ∧
    occursInStr "Country" "Country" = true ∧
    scanCountry ["Country", "Japan", "Country"] "x" = "Japan" := by
  have h := atcoder_label_scan ⟨0, 0, 0⟩ "Highest Rating" "2000"
    ["Rating", "1500"] "x" "u" 200 acPageHighestFirst
  have h2 := atcoder_label_scan ⟨0, 0, 0⟩ "Country" "Japan" ["Country"] "x"
    "u" 200 acPageHighestFirst
  exact ⟨by decide, by decide,
    (h.2.1 (by decide) (by decide)).trans (by decide),
    by decide, h2.2.2.2.1 (by decide)⟩

/-- Claim C8 counterexample: the pacing delay is keyed to the raw
1-based item index (`if i > 1`), not to the count of network-bound
items.  With a malformed first item, the second item — the batch's
FIRST network-bound item — is still preceded by a sleep, contradicting
the claim that the first network-bound item is never delayed. -/
theorem pacing_first_net_item_delayed :
    (get_multiple_ratings Ttriv [⟨"", ""⟩, ⟨"leetcode", "u"⟩]).2 =
      [Ev.sleep, Ev.net "leetcode" "u"] ∧
    (get_multiple_ratings Ttriv [⟨"", ""⟩, ⟨"leetcode", "u"⟩]).2.head? =
      some Ev.sleep := by decide

/-- Claim C8 amended: the batch trace decomposes item by item; a
malformed item (empty trimmed platform or username) contributes no
events at all — in particular it never incurs a delay — while a
network-bound item contributes a sleep immediately before its
dispatcher call exactly when its raw 1-based position in the full input
(malformed items included) is greater than 1.  Hence the first
network-bound item is delayed whenever any item — even a malformed
one — precedes it. -/
theorem pacing_by_raw_index (T : Transport) (items : List Item) (i : Nat)
    (request : Item) :
    (get_multiple_ratings T items).2 = traceFrom T 1 items ∧
    ((trimStr (lowerStr request.platform) = "" ∨ trimStr request.username = "") →
      itemEvents T i request = []) ∧
    (trimStr (lowerStr request.platform) ≠ "" → trimStr request.username ≠ "" →
      itemEvents T i request =
        (if i > 1 then [Ev.sleep] else []) ++
        (get_rating_by_platform T (trimStr (lowerStr request.platform))
          (trimStr request.username)).2) := by
  refine ⟨?_, ?_, ?_⟩
  · rw [get_multiple_ratings_eq]
  · intro h
    have hb : (trimStr (lowerStr request.platform) == "" ||
        trimStr request.username == "") = true := by
      rcases h with h | h <;> simp [h]
    simp [itemEvents, hb]
  · intro h1 h2
    have hb : (trimStr (lowerStr request.platform) == "" ||
        trimStr request.username == "") = false := by
      simp [h1, h2]
    simp [itemEvents, hb]

theorem pacing_by_raw_index_witness :
    (trimStr (lowerStr "") = "" ∨ trimStr "" = "") ∧
    itemEvents Ttriv 1 ⟨"", ""⟩ = [] ∧
    trimStr (lowerStr "leetcode") ≠ "" ∧ trimStr "u" ≠ "" ∧
    itemEvents Ttriv 2 ⟨"leetcode", "u"⟩ =
      (if 2 > 1 then [Ev.sleep] else []) ++
      (get_rating_by_platform Ttriv (trimStr (lowerStr "leetcode"))
        (trimStr "u")).2 := by
  have h1 := (pacing_by_raw_index Ttriv [] 1 ⟨"", ""⟩).2.1 (Or.inl (by decide))
  have h2 := (pacing_by_raw_index Ttriv [] 2 ⟨"leetcode", "u"⟩).2.2
    (by decide) (by decide)
  exact ⟨Or.inl (by decide), h1, by decide, by decide, h2⟩

/-- An AtCoder page with no cells at all. -/
def acEmptyPage : AtcoderPage := { cells := [] }

/-- Claim C9: on a 2xx response whose body matches none of the markup
the extraction strategies look for (and, for CodeChef, carries no
not-found marker), the CodeChef and AtCoder adapters return
`rating = 0, max_rating = 0, status = success` with every other
extracted field at its documented default.  More generally the CodeChef
record on any valid 2xx page is assembled field by field — each field a
function of its own extraction inputs only (`ratingFrom`,
`maxRatingFrom`, `scanRanks`, and the per-selector defaults) — so a
failed extraction degrades only its own field and never aborts the
record. -/
theorem empty_markup_is_success (username : String) (code : Nat)
    (page : CodechefPage) (apage : AtcoderPage)
    (h2 : 200 ≤ code ∧ code < 300) :
    (occursInStr "page not found" (lowerStr page.bodyText) = false →
      get_codechef_rating username (.ok code page) =
        { platform := "codechef", username := username,
          rating := ratingFrom page.ratingText, status := .success,
          max_rating := some
            (if maxRatingFrom page.ratingText page.parentChildren <
                ratingFrom page.ratingText
             then ratingFrom page.ratingText
             else maxRatingFrom page.ratingText page.parentChildren),
          country_flag := some (page.countryFlagSrc.getD ""),
          country_name := some (page.countryNameText.getD ""),
          global_rank := some (scanRanks page.rankItems (0, 0)).1,
          country_rank := some (scanRanks page.rankItems (0, 0)).2,
          stars := some (page.starsText.getD "unrated") }) ∧
    (page.ratingText = none → page.countryFlagSrc = none →
      page.countryNameText = none →
      (∀ t ∈ page.rankItems, occursInStr "Global Rank" t = false ∧
        occursInStr "Country Rank" t = false) →
      page.starsText = none →
      occursInStr "page not found" (lowerStr page.bodyText) = false →
      get_codechef_rating username (.ok code page) =
        { platform := "codechef", username := username, rating := 0,
          status := .success, max_rating := some 0, country_flag := some "",
          country_name := some "", global_rank := some 0,
          country_rank := some 0, stars := some "unrated" }) ∧
    ((∀ cl ∈ apage.cells, cl ≠ "Rating" ∧
        occursInStr "Highest Rating" cl = false ∧
        occursInStr "Rank" cl = false ∧ occursInStr "Country" cl = false) →
      get_atcoder_rating username (.ok code apage) =
        { platform := "atcoder", username := username, rating := 0,
          status := .success, max_rating := some 0, rank_value := some 0,
          country := some "" }) := by
  have hrs : raisesForStatus code = false := by
    simp only [raisesForStatus, Bool.and_eq_false_iff]
    left; simp; omega
  have h404 : (code == 404) = false := by
    have : code ≠ 404 := by omega
    exact beq_eq_false_iff_ne.mpr this
  refine ⟨?_, ?_, ?_⟩
  · intro hmark
    simp [get_codechef_rating, hrs, h404, hmark]
  · intro hrt hcf hcn hrk hst hmark
    have hranks : scanRanks page.rankItems (0, 0) = (0, 0) :=
      scanRanks_no_match page.rankItems (0, 0) hrk
    have hranks0 : scanRanks page.rankItems (0 : Int × Int) = (0 : Int × Int) :=
      hranks
    simp [get_codechef_rating, hrs, h404, hmark, hrt, hcf, hcn, hst, hranks,
      hranks0, ratingFrom, maxRatingFrom]
  · intro hcells
    have hscan : scanCells apage.cells ⟨0, 0, 0⟩ = ⟨0, 0, 0⟩ :=
      scanCells_no_match apage.cells ⟨0, 0, 0⟩
        (fun cl hcl => ⟨(hcells cl hcl).1, (hcells cl hcl).2.1, (hcells cl hcl).2.2.1⟩)
    have hcountry : scanCountry apage.cells "" = "" :=
      scanCountry_no_match apage.cells "" (fun cl hcl => (hcells cl hcl).2.2.2)
    simp [get_atcoder_rating, hrs, h404, hscan, hcountry]

theorem empty_markup_is_success_witness :
    (200 ≤ 200 ∧ 200 < 300) ∧
    get_codechef_rating "u" (Fetch.ok 200 ccEmptyPage) =
      { platform := "codechef", username := "u", rating := 0,
        status := .success, max_rating := some 0, country_flag := some "",
        country_name := some "", global_rank := some 0, country_rank := some 0,
        stars := some "unrated" } ∧
    get_atcoder_rating "u" (Fetch.ok 200 acEmptyPage) =
      { platform := "atcoder", username := "u", rating := 0,
        status := .success, max_rating := some 0, rank_value := some 0,
        country := some "" } := by
  obtain ⟨-, hcc, hac⟩ :=
    empty_markup_is_success "u" 200 ccEmptyPage acEmptyPage (by decide)
  refine ⟨by decide, ?_, ?_⟩
  · exact hcc (by decide) (by decide) (by decide)
      (fun t ht => by simp [ccEmptyPage] at ht) (by decide) (by decide)
  · exact hac (fun cl hcl => by simp [acEmptyPage] at hcl)
